import Mathlib

/-!
Verification of the core of `vulkan_api_generator.py`
(class `VulkanApiOutputGenerator`): the registry-to-model transformation,
the feature-scoped accumulation state machine, the global object registry
and the platform partitioner of `endFile`.

The embedding translates the Python source directly:
* XML schema nodes become plain structures holding the tag/text/attribute
  data the generator actually reads;
* the generator's mutable attributes become the fields of `GenState`,
  and every lifecycle hook becomes a state-passing function;
* each `write(x, file=self.outFile)` call is modelled by appending the
  payload string `x` to `GenState.output`.

Fields of the Python object that none of the verified claims touch
(`sections`, `structNames`, `stypes`, `commands`, `headerVersion`,
and the `cdecl` strings produced by the base class helpers
`makeCParamDecl`/`makeCDecls`) are not modelled; no modelled code reads
or writes them.
-/

/-- Helper `noneStr` from the generator framework: maps a possibly-absent XML
text to the empty string. -/
def noneStr : Option String → String
  | some s => s
  | none => ""

/-- Python's substring test `pat in s`, on explicit character lists. -/
def charsContains (pat : List Char) : List Char → Bool
  | [] => pat.isEmpty
  | c :: rest => pat.isPrefixOf (c :: rest) || charsContains pat rest

/-- Python's substring test `pat in s` for strings. -/
def strContains (s pat : String) : Bool :=
  charsContains pat.data s.data

/-- Whether `s` starts with `p` (used to recognise emitted declaration
blocks by their fixed leading text). -/
def strStartsWith (s p : String) : Bool :=
  s.data.take p.data.length == p.data

/-- One child element of a `<param>` node: its tag and its text
(`None` text and missing text are both `none`). -/
structure XmlChild where
  tag : String
  text : Option String
deriving Repr, DecidableEq

/-- A `<param>` schema node, as iterated by `getTypeNameTuple`. -/
structure ParamNode where
  children : List XmlChild
deriving Repr, DecidableEq

/-- Method `getTypeNameTuple` (source lines 570-578): scan the param node's
children in document order, keeping the last `<type>` text and the last
`<name>` text, both defaulting to the empty string. -/
def getTypeNameTuple (param : ParamNode) : String × String :=
  param.children.foldl
    (fun acc elem =>
      if elem.tag == "type" then (noneStr elem.text, acc.2)
      else if elem.tag == "name" then (acc.1, noneStr elem.text)
      else acc)
    ("", "")

/-- One `types/type` element of the registry tree, holding exactly the
data `getTypeCategory` and `isHandleTypeNonDispatchable` read: the text
of a `<name>` child, the `name` attribute, the `category` attribute and
the text of a `<type>` child.  A `<name>` child that is present but has
no text compares unequal to every type name in the source, so it is
collapsed to `none` here. -/
structure TypeElem where
  nameChild : Option String
  nameAttr : Option String
  category : Option String
  typeChild : Option String
deriving Repr, DecidableEq

/-- The `types/type` elements of the registry, in document order. -/
abbrev Registry := List TypeElem

/-- Method `getTypeCategory` (source lines 148-152): return the `category`
attribute of the first type element whose `<name>` child text or `name`
attribute equals `typename`; `none` if no element matches or the
matching element has no category. -/
def getTypeCategory (reg : Registry) (typename : String) : Option String :=
  match reg.find? (fun e => e.nameChild == some typename || e.nameAttr == some typename) with
  | some e => e.category
  | none => none

/-- Method `isHandleTypeNonDispatchable` (source lines 155-160): find the first
type element with a `<name>` child equal to `handletype` and category
attribute `handle` (the ElementTree path `types/type/[name=...]`
matches on the `<name>` child only, never on the `name` attribute), and
test whether its `<type>` child text is the non-dispatchable macro.
When the matched element has no `<type>` child the source would raise
`AttributeError`; no verified claim reaches that case, and it is
rendered here as `false`. -/
def isHandleTypeNonDispatchable (reg : Registry) (handletype : String) : Bool :=
  match reg.find? (fun e => e.nameChild == some handletype && e.category == some "handle") with
  | some e => e.typeChild == some "VK_DEFINE_NON_DISPATCHABLE_HANDLE"
  | none => false

/-- The text of a command's `proto/type` and `proto/name` children plus
its `<param>` nodes, as read by `genCmd`. -/
structure CmdInfo where
  protoType : String
  protoName : String
  params : List ParamNode
deriving Repr, DecidableEq

/-- The mutable attributes of `VulkanApiOutputGenerator` that the
verified claims depend on, plus the base class's current-feature
bookkeeping (`featureName`, `featureExtraProtect`) and the emitted
output (one entry per `write` call). -/
structure GenState where
  dispatchable_objects : List String
  non_dispatchable_objects : List String
  feature_objects : List String
  feature_protos : String
  feature_names : List String
  featureName : Option String
  featureExtraProtect : Option String
  output : List String
deriving Repr, DecidableEq

/-- The state at `__init__`/`beginFile`: every accumulator empty, no
feature open. -/
def initialGenState : GenState :=
  { dispatchable_objects := []
    non_dispatchable_objects := []
    feature_objects := []
    feature_protos := ""
    feature_names := []
    featureName := none
    featureExtraProtect := none
    output := [] }

/-- Method `beginFeature` (source lines 481-499).  The base class call records
the feature name and its optional `protect` attribute; the subclass
body then resets the per-feature accumulators and writes the head of
the `Extension(` declaration.  The source performs no state check: a
second `beginFeature` while a feature is open simply repeats this,
discarding the open feature's `feature_objects`/`feature_protos`. -/
def beginFeatureStep (name : String) (protect : Option String) (s : GenState) : GenState :=
  { s with
    featureName := some name
    featureExtraProtect := protect
    feature_objects := []
    feature_protos := ""
    output := s.output ++
      [name ++ " = Extension(\n    name=\"" ++ name ++ "\",\n    headers=[\"vulkan/vulkan.h\"],"] }

/-- The `feature_objects` update of `genCmd` (source lines 558-560):
append the param type iff it is new to the open feature and to both
global object lists. -/
def featureObjUpdate (ty : String) (s : GenState) : GenState :=
  if ty ∈ s.feature_objects then s
  else if ty ∈ s.dispatchable_objects ∨ ty ∈ s.non_dispatchable_objects then s
  else { s with feature_objects := s.feature_objects ++ [ty] }

/-- The global object list update of `genCmd` (source lines 561-566):
append the param type to the matching global list if absent. -/
def globalObjUpdate (reg : Registry) (ty : String) (s : GenState) : GenState :=
  if isHandleTypeNonDispatchable reg ty then
    if ty ∈ s.non_dispatchable_objects then s
    else { s with non_dispatchable_objects := s.non_dispatchable_objects ++ [ty] }
  else
    if ty ∈ s.dispatchable_objects then s
    else { s with dispatchable_objects := s.dispatchable_objects ++ [ty] }

/-- The object bookkeeping of `genCmd` for one param type (source
lines 557-566): only types of category `handle` are recorded. -/
def paramObjUpdate (reg : Registry) (ty : String) (s : GenState) : GenState :=
  if getTypeCategory reg ty == some "handle" then
    globalObjUpdate reg ty (featureObjUpdate ty s)
  else s

/-- The per-param body of `genCmd`'s second loop (source lines
551-566): append the `Param("type", "name"),` line to
`feature_protos`, then update the object lists. -/
def genCmdParamStep (reg : Registry) (p : ParamNode) (s : GenState) : GenState :=
  let info := getTypeNameTuple p
  paramObjUpdate reg info.1
    { s with feature_protos :=
        s.feature_protos ++ "             Param(\"" ++ info.1 ++ "\", \"" ++ info.2 ++ "\"),\n" }

/-- Method `genCmd` (source lines 535-567), restricted to the modelled fields:
open a `Proto(` entry in `feature_protos` with the raw name's first two
characters dropped (`proto_name[2:]`, no validation), process each
param in order, close the entry.  `genCmd` itself calls `write` never,
and does not touch `feature_names`. -/
def genCmdStep (reg : Registry) (cmd : CmdInfo) (s : GenState) : GenState :=
  let s1 := { s with feature_protos :=
      s.feature_protos
        ++ "        Proto(\"" ++ cmd.protoType ++ "\", \"" ++ cmd.protoName.drop 2 ++ "\",\n"
        ++ "            [\n" }
  let s2 := cmd.params.foldl (fun st p => genCmdParamStep reg p st) s1
  { s2 with feature_protos := s2.feature_protos ++ "            ]),\n" }

/-- Modelled from the spec: the registry traversal framework's base
class (`generator.py`, which is repository code not present under
`src/`) validates before dispatching each command visit that a feature
is currently open, and signals a protocol violation (aborting the run)
otherwise; the subclass body `genCmdStep` runs only after that check.
The violation is rendered as `none`. -/
def genCmdValidated (reg : Registry) (cmd : CmdInfo) (s : GenState) : Option GenState :=
  if s.featureName.isSome then some (genCmdStep reg cmd s) else none

/-- The `"%s",` line of the feature `objects=[...]` block
(source line 515). -/
def featureObjectLine (o : String) : String :=
  "        \"" ++ o ++ "\",\n"

/-- Method `endFeature` (source lines 502-531): write the `ifdef` line, the
feature's `objects` block, its `protos` block, append the current
feature name to `feature_names`, write the closing parenthesis; the
base class then clears the current-feature bookkeeping.  The global
object lists are not touched, and `feature_objects`/`feature_protos`
are not cleared (only the next `beginFeature` resets them).  When no
feature is open the source appends Python `None` to `feature_names`
without complaint; that value is rendered here as the empty string. -/
def endFeatureStep (s : GenState) : GenState :=
  let ifdefs := match s.featureExtraProtect with
    | some p => "    ifdef=\"" ++ p ++ "\","
    | none => "    ifdef=\"\","
  let object_list :=
    if s.feature_objects.isEmpty then "    objects=[],"
    else "    objects=[\n" ++ String.join (s.feature_objects.map featureObjectLine) ++ "    ],"
  let protos :=
    if s.feature_protos == "" then "    protos=[],"
    else "    protos=[\n" ++ s.feature_protos ++ "    ],\n"
  { s with
    feature_names := s.feature_names ++ [noneStr s.featureName]
    featureName := none
    featureExtraProtect := none
    output := s.output ++ [ifdefs, object_list, protos, ")\n"] }

/-- One feature of the schema: its name, optional `protect` attribute
and commands, visited in order by the traversal framework. -/
structure FeatureNode where
  name : String
  protect : Option String
  cmds : List CmdInfo
deriving Repr, DecidableEq

/-- One begin/visit*/end unit of the traversal. -/
def processFeature (reg : Registry) (s : GenState) (f : FeatureNode) : GenState :=
  endFeatureStep (f.cmds.foldl (fun st c => genCmdStep reg c st) (beginFeatureStep f.name f.protect s))

/-- A whole run over a schema: every feature in order, starting from
the initial state. -/
def runFeatures (reg : Registry) (fs : List FeatureNode) : GenState :=
  fs.foldl (processFeature reg) initialGenState

/-- List `linux_wsi_types` (source line 327). -/
def linux_wsi_types : List String := ["xlib_", "xcb_", "wayland_", "mir_"]

/-- List `wsi_extensions` (source lines 329-334). -/
def wsi_extensions : List String :=
  ["VK_KHR_android_surface", "VK_KHR_win32_surface", "VK_KHR_xlib_surface",
   "VK_KHR_xcb_surface", "VK_KHR_wayland_surface", "VK_KHR_mir_surface"]

/-- List `base_extensions` (source lines 336-339). -/
def base_extensions : List String :=
  ["VK_VERSION_1_0", "VK_KHR_surface", "VK_KHR_swapchain", "VK_KHR_display_swapchain"]

/-- The eight accumulator lists of `endFile`'s partitioning loop
(source lines 341-351). -/
structure PlatformBuckets where
  win32_wsi : List String
  win32_only : List String
  android_wsi : List String
  android_only : List String
  linux_wsi : List String
  linux_only : List String
  common_exts : List String
  other_exts : List String
deriving Repr, DecidableEq

/-- The empty bucket accumulators. -/
def emptyBuckets : PlatformBuckets := ⟨[], [], [], [], [], [], [], []⟩

/-- The eight bucket labels. -/
inductive Bucket
  | win32wsi | win32only | androidwsi | androidonly
  | linuxwsi | linuxonly | common | other
deriving Repr, DecidableEq

/-- The body of the partitioning loop (source lines 354-375): drop one
extension name into the bucket chosen by the if/elif chain. -/
def addExt (b : PlatformBuckets) (ext : String) : PlatformBuckets :=
  if strContains ext "win32" then
    if wsi_extensions.contains ext then { b with win32_wsi := b.win32_wsi ++ [ext] }
    else { b with win32_only := b.win32_only ++ [ext] }
  else if strContains ext "android" then
    if wsi_extensions.contains ext then { b with android_wsi := b.android_wsi ++ [ext] }
    else { b with android_only := b.android_only ++ [ext] }
  else if linux_wsi_types.any (fun t => strContains ext t) then
    if wsi_extensions.contains ext then { b with linux_wsi := b.linux_wsi ++ [ext] }
    else { b with linux_only := b.linux_only ++ [ext] }
  else if base_extensions.contains ext then { b with common_exts := b.common_exts ++ [ext] }
  else { b with other_exts := b.other_exts ++ [ext] }

/-- The partitioning loop of `endFile` (source lines 353-375). -/
def partitionExtensions (names : List String) : PlatformBuckets :=
  names.foldl addExt emptyBuckets

/-- The bucket the if/elif chain of `addExt` selects for one name:
the same tests in the same order, reified as a label. -/
def routeExt (ext : String) : Bucket :=
  if strContains ext "win32" then
    if wsi_extensions.contains ext then .win32wsi else .win32only
  else if strContains ext "android" then
    if wsi_extensions.contains ext then .androidwsi else .androidonly
  else if linux_wsi_types.any (fun t => strContains ext t) then
    if wsi_extensions.contains ext then .linuxwsi else .linuxonly
  else if base_extensions.contains ext then .common
  else .other

/-- Project the bucket list named by a label. -/
def bucketGet (b : PlatformBuckets) : Bucket → List String
  | .win32wsi => b.win32_wsi
  | .win32only => b.win32_only
  | .androidwsi => b.android_wsi
  | .androidonly => b.android_only
  | .linuxwsi => b.linux_wsi
  | .linuxonly => b.linux_only
  | .common => b.common_exts
  | .other => b.other_exts

/-- All eight buckets concatenated, in declaration order. -/
def allBuckets (b : PlatformBuckets) : List String :=
  b.win32_wsi ++ b.win32_only ++ b.android_wsi ++ b.android_only ++
    b.linux_wsi ++ b.linux_only ++ b.common_exts ++ b.other_exts

/-- The `"%s, "` item rendering of the inline extension lists
(source pattern at lines 392, 397, 402, 410, 415, 420, 427). -/
def extListInline (l : List String) : String :=
  String.join (l.map (fun item => item ++ ", "))

/-- The `"    %s,\n"` item rendering of `non_exported_exts`
(source line 433). -/
def extListLines (l : List String) : String :=
  String.join (l.map (fun item => "    " ++ item ++ ",\n"))

/-- The `object_dispatch_list` declaration block (source lines
308-313), emitted only when the list is non-empty. -/
def dispatchListText (l : List String) : String :=
  "object_dispatch_list = [\n" ++
    (String.join (l.map (fun o => "    \"" ++ o ++ "\",\n")) ++ "]")

/-- The `object_non_dispatch_list` declaration block (source lines
317-322), emitted only when the list is non-empty. -/
def nonDispatchListText (l : List String) : String :=
  "object_non_dispatch_list = [\n" ++
    (String.join (l.map (fun o => "    \"" ++ o ++ "\",\n")) ++ "]")

/-- The `ext_handling` text of `endFile` (source lines 377-451),
grouped as its fixed head followed by the bucket-dependent rest. -/
def extHandlingText (b : PlatformBuckets) : String :=
  "#\n# Build lists of extensions for use by other codegen utilites\nimport sys\n\n" ++
  ("# Set up platform-specific display servers\n" ++
   "android_display_servers = ['Android']\n" ++
   "linux_display_servers   = ['Xcb', 'Xlib', 'Wayland', 'Mir', 'Display']\n" ++
   "win32_display_servers   = ['Win32']\n" ++
   "\n" ++
   "# Define platform-specific WSI extensions\n" ++
   ("android_wsi_exts = [" ++ extListInline b.android_wsi ++ "]\n") ++
   ("linux_wsi_exts   = [" ++ extListInline b.linux_wsi ++ "]\n") ++
   ("win32_wsi_exts   = [" ++ extListInline b.win32_wsi ++ "]\n") ++
   "\n" ++
   "# Define non-WSI platform-specific extensions\n" ++
   ("android_only_exts = [" ++ extListInline b.android_only ++ "]\n") ++
   ("linux_only_exts   = [" ++ extListInline b.linux_only ++ "]\n") ++
   ("win32_only_exts   = [" ++ extListInline b.win32_only ++ "]\n") ++
   "\n" ++
   "# Define extensions common to all configurations\n" ++
   ("common_exts = [" ++ extListInline b.common_exts ++ "]\n") ++
   "\n" ++
   "# Define extensions not exported by the loader\n" ++
   ("non_exported_exts = [\n" ++ extListLines b.other_exts ++ "    ]\n") ++
   "\n" ++
   "extensions = common_exts\n" ++
   "extensions_all = non_exported_exts\n" ++
   "\n" ++
   "if sys.argv[1] in win32_display_servers:\n" ++
   "    extensions += win32_wsi_exts\n" ++
   "    extensions_all += extensions + win32_only_exts\n" ++
   "elif sys.argv[1] in linux_display_servers:\n" ++
   "    extensions += linux_wsi_exts\n" ++
   "    extensions_all += extensions + linux_only_exts\n" ++
   "elif sys.argv[1] in android_display_servers:\n" ++
   "    extensions += android_wsi_exts\n" ++
   "    extensions_all += extensions + android_only_exts\n" ++
   "else:\n" ++
   "    extensions += win32_wsi_exts + linux_wsi_exts + android_wsi_exts\n" ++
   "    extensions_all += extensions + win32_only_exts + linux_only_exts + android_only_exts\n")

/-- The fixed `structs` text of `endFile` (source lines 453-476). -/
def structsText : String :=
  "object_type_list = object_dispatch_list + object_non_dispatch_list\n" ++
  ("\n" ++
   "headers = []\n" ++
   "objects = []\n" ++
   "protos = []\n" ++
   "for ext in extensions:\n" ++
   "    headers.extend(ext.headers)\n" ++
   "    objects.extend(ext.objects)\n" ++
   "    protos.extend(ext.protos)\n" ++
   "\n" ++
   "proto_names = [proto.name for proto in protos]\n" ++
   "\n" ++
   "headers_all = []\n" ++
   "objects_all = []\n" ++
   "protos_all = []\n" ++
   "for ext in extensions_all:\n" ++
   "    headers_all.extend(ext.headers)\n" ++
   "    objects_all.extend(ext.objects)\n" ++
   "    protos_all.extend(ext.protos)\n" ++
   "\n" ++
   "proto_all_names = [proto.name for proto in protos_all]\n")

/-- The `write` payloads of `endFile` (source lines 306-476): the two
object-name declarations are emitted only when the corresponding
global list is non-empty (the `if self.dispatchable_objects:` /
`if self.non_dispatchable_objects:` guards); the extension handling
and structs blocks always follow. -/
def endFileWrites (s : GenState) : List String :=
  (if s.dispatchable_objects.isEmpty then [] else [dispatchListText s.dispatchable_objects]) ++
  (if s.non_dispatchable_objects.isEmpty then [] else [nonDispatchListText s.non_dispatchable_objects]) ++
  [extHandlingText (partitionExtensions s.feature_names), structsText]

/-- The text of the last child with tag `tg`, or `dflt` when there is
none: the reference value for the last-wins overwrite loop of
`getTypeNameTuple`. -/
def lastTagText (tg : String) (dflt : String) (cs : List XmlChild) : String :=
  match cs.reverse.find? (fun c => c.tag == tg) with
  | some c => noneStr c.text
  | none => dflt

/-- The `Param("type", "name"),` line appended for one param. -/
def paramLine (p : ParamNode) : String :=
  "             Param(\"" ++ (getTypeNameTuple p).1 ++ "\", \"" ++ (getTypeNameTuple p).2 ++ "\"),\n"

/-- A small concrete registry: `VkInstanceCreateInfo` is a struct,
`VkInstance` a dispatchable handle (its `<type>` child is the
dispatchable macro). -/
def regVk : Registry :=
  [⟨some "VkInstanceCreateInfo", some "VkInstanceCreateInfo", some "struct", none⟩,
   ⟨some "VkInstance", some "VkInstance", some "handle", some "VK_DEFINE_HANDLE"⟩]

/-- The schema node of
`vkCreateInstance(VkInstanceCreateInfo* pInfo, VkInstance* pInstance)`
as the registry XML encodes it: the `<type>` child of each param holds
the bare type name, the pointer star lives in surrounding text that
`getTypeNameTuple` never reads. -/
def cmdVkCreateInstance : CmdInfo :=
  ⟨"VkResult", "vkCreateInstance",
   [⟨[⟨"type", some "VkInstanceCreateInfo"⟩, ⟨"name", some "pInfo"⟩]⟩,
    ⟨[⟨"type", some "VkInstance"⟩, ⟨"name", some "pInstance"⟩]⟩]⟩

/-- The feature `VK_VERSION_1_0` containing only `vkCreateInstance`. -/
def featVk10 : FeatureNode := ⟨"VK_VERSION_1_0", none, [cmdVkCreateInstance]⟩

/-- The state right after `beginFeature("VK_VERSION_1_0")`. -/
def stateOpenVk10 : GenState := beginFeatureStep "VK_VERSION_1_0" none initialGenState

/-- The state right after visiting `vkCreateInstance` inside the open
feature. -/
def stateAfterCmdVk10 : GenState := genCmdStep regVk cmdVkCreateInstance stateOpenVk10

/-- A variant encoding in which the `<type>` child texts carry the
pointer star (`VkInstance*`), for comparison against the claimed
scenario outcome. -/
def cmdVkCreateInstanceStar : CmdInfo :=
  ⟨"VkResult", "vkCreateInstance",
   [⟨[⟨"type", some "VkInstanceCreateInfo*"⟩, ⟨"name", some "pInfo"⟩]⟩,
    ⟨[⟨"type", some "VkInstance*"⟩, ⟨"name", some "pInstance"⟩]⟩]⟩

/-- A second feature whose only command also references `VkInstance`:
`vkDestroyInstance(VkInstance instance)`. -/
def featVkDestroy : FeatureNode :=
  ⟨"VK_KHR_surface", none,
   [⟨"void", "vkDestroyInstance",
     [⟨[⟨"type", some "VkInstance"⟩, ⟨"name", some "instance"⟩]⟩]⟩]⟩

/-- A registry whose only element declares a handle through the `name`
attribute alone (no `<name>` child), with the non-dispatchable
macro. -/
def regAttrOnly : Registry :=
  [⟨none, some "VkSurfaceKHR", some "handle", some "VK_DEFINE_NON_DISPATCHABLE_HANDLE"⟩]

/-- Type `t` is referenced by a feature: some command of the feature has a
param whose extracted type is `t`, and the classifier reports category
`handle` for `t`. -/
def referencedIn (reg : Registry) (t : String) (f : FeatureNode) : Prop :=
  ∃ c ∈ f.cmds, ∃ p ∈ c.params,
    (getTypeNameTuple p).1 = t ∧ getTypeCategory reg t = some "handle"

instance (reg : Registry) (t : String) (f : FeatureNode) :
    Decidable (referencedIn reg t f) := by
  unfold referencedIn
  exact List.decidableBEx _ _

/-- The run invariant of the global object lists: both are
duplicate-free and each holds only names of its own handle kind. -/
def GoodGlobals (reg : Registry) (s : GenState) : Prop :=
  s.dispatchable_objects.Nodup ∧
  s.non_dispatchable_objects.Nodup ∧
  (∀ x ∈ s.dispatchable_objects, isHandleTypeNonDispatchable reg x = false) ∧
  (∀ x ∈ s.non_dispatchable_objects, isHandleTypeNonDispatchable reg x = true)

/-- Every bucket of the empty accumulators is empty. -/
theorem bucketGet_empty (k : Bucket) : bucketGet emptyBuckets k = [] := by
  cases k <;> rfl

/-- One partitioning-loop iteration appends the name to exactly the
bucket selected by the if/elif chain. -/
theorem addExt_bucketGet (b : PlatformBuckets) (e : String) (k : Bucket) :
    bucketGet (addExt b e) k =
      if routeExt e = k then bucketGet b k ++ [e] else bucketGet b k := by
  unfold addExt routeExt
  split_ifs <;> cases k <;> simp_all [bucketGet]

/-- The partitioning loop leaves each bucket holding exactly the input
names routed to it, in input order, after whatever the accumulator
already held. -/
theorem foldl_addExt_bucketGet (l : List String) (b : PlatformBuckets) (k : Bucket) :
    bucketGet (l.foldl addExt b) k =
      bucketGet b k ++ l.filter (fun e => routeExt e == k) := by
  induction l generalizing b with
  | nil => simp
  | cons e t ih =>
    rw [List.foldl_cons, ih, addExt_bucketGet, List.filter_cons]
    by_cases h : routeExt e = k <;> simp [h]

/-- Counting a name in the names routed to bucket `k`. -/
theorem count_filter_route (names : List String) (x : String) (k : Bucket) :
    (names.filter (fun e => routeExt e == k)).count x
      = if routeExt x = k then names.count x else 0 := by
  by_cases h : routeExt x = k
  · simp [h, List.count_filter]
  · simp only [h, if_false]
    refine List.count_eq_zero.2 ?_
    intro hx
    exact h (by simpa using (List.mem_filter.1 hx).2)

/-- C1: the Platform Partitioner assigns each input feature name to
exactly one of the eight buckets (the bucket selected by `routeExt`,
and no other bucket receives it), and the multiset union of all eight
buckets equals the input list: no duplicates added, no names
omitted. -/
theorem partitioner_exact_cover (names : List String) :
    (∀ k : Bucket, bucketGet (partitionExtensions names) k
        = names.filter (fun e => routeExt e == k)) ∧
    (∀ x : String, (allBuckets (partitionExtensions names)).count x = names.count x) := by
  have hk : ∀ k : Bucket, bucketGet (partitionExtensions names) k
      = names.filter (fun e => routeExt e == k) := by
    intro k
    rw [partitionExtensions, foldl_addExt_bucketGet, bucketGet_empty, List.nil_append]
  refine ⟨hk, ?_⟩
  intro x
  have hall : allBuckets (partitionExtensions names) =
      bucketGet (partitionExtensions names) .win32wsi ++
      bucketGet (partitionExtensions names) .win32only ++
      bucketGet (partitionExtensions names) .androidwsi ++
      bucketGet (partitionExtensions names) .androidonly ++
      bucketGet (partitionExtensions names) .linuxwsi ++
      bucketGet (partitionExtensions names) .linuxonly ++
      bucketGet (partitionExtensions names) .common ++
      bucketGet (partitionExtensions names) .other := rfl
  rw [hall, hk, hk, hk, hk, hk, hk, hk, hk]
  simp only [List.count_append, count_filter_route]
  cases hr : routeExt x <;> simp [hr]

/-- Peeling the first child off `lastTagText`: it only changes the
default carried into the rest. -/
theorem lastTagText_cons (tg d : String) (c : XmlChild) (cs : List XmlChild) :
    lastTagText tg d (c :: cs) =
      lastTagText tg (if c.tag == tg then noneStr c.text else d) cs := by
  unfold lastTagText
  rw [List.reverse_cons, List.find?_append]
  cases h : (cs.reverse).find? (fun x => x.tag == tg) <;>
    by_cases hc : c.tag == tg <;> simp [h, hc, List.find?]

/-- The overwrite loop of `getTypeNameTuple` computes, from any
starting accumulator, the last `<type>` and `<name>` texts. -/
theorem getTypeNameTuple_foldl (cs : List XmlChild) (a b : String) :
    cs.foldl (fun acc elem =>
      if elem.tag == "type" then (noneStr elem.text, acc.2)
      else if elem.tag == "name" then (acc.1, noneStr elem.text)
      else acc) (a, b)
    = (lastTagText "type" a cs, lastTagText "name" b cs) := by
  induction cs generalizing a b with
  | nil => simp [lastTagText]
  | cons c cs ih =>
    rw [List.foldl_cons, lastTagText_cons, lastTagText_cons]
    by_cases h1 : c.tag == "type"
    · have h2 : (c.tag == "name") = false := by
        simp only [beq_iff_eq] at h1 ⊢
        simp [h1]
      simp only [h1, h2]
      simp only [if_true, Bool.false_eq_true, if_false]
      simpa using ih (noneStr c.text) b
    · by_cases h2 : c.tag == "name"
      · simp [h1, h2]
        simpa using ih a (noneStr c.text)
      · simp [h1, h2]
        simpa using ih a b

/-- C10: parameter extraction is total and never raises: the extracted
type is the text of the last `<type>` child (empty string when there is
none, and when the text itself is absent), the extracted name likewise
from the last `<name>` child; children with other tags are ignored. -/
theorem param_extraction_total_last_wins (p : ParamNode) :
    getTypeNameTuple p =
      (lastTagText "type" "" p.children, lastTagText "name" "" p.children) := by
  unfold getTypeNameTuple
  exact getTypeNameTuple_foldl p.children "" ""

/-- Appending a fresh element preserves `Nodup`. -/
theorem nodup_append_one {l : List String} {x : String} (h : l.Nodup) (hx : x ∉ l) :
    (l ++ [x]).Nodup := by
  simp [List.nodup_append, h, hx]

/-- Update `featureObjUpdate` only ever touches `feature_objects`. -/
theorem featureObjUpdate_frame (ty : String) (s : GenState) :
    (featureObjUpdate ty s).dispatchable_objects = s.dispatchable_objects ∧
    (featureObjUpdate ty s).non_dispatchable_objects = s.non_dispatchable_objects ∧
    (featureObjUpdate ty s).feature_protos = s.feature_protos ∧
    (featureObjUpdate ty s).feature_names = s.feature_names ∧
    (featureObjUpdate ty s).featureName = s.featureName ∧
    (featureObjUpdate ty s).featureExtraProtect = s.featureExtraProtect ∧
    (featureObjUpdate ty s).output = s.output := by
  unfold featureObjUpdate
  split_ifs <;> simp

/-- Update `globalObjUpdate` only ever touches the two global object lists. -/
theorem globalObjUpdate_frame (reg : Registry) (ty : String) (s : GenState) :
    (globalObjUpdate reg ty s).feature_objects = s.feature_objects ∧
    (globalObjUpdate reg ty s).feature_protos = s.feature_protos ∧
    (globalObjUpdate reg ty s).feature_names = s.feature_names ∧
    (globalObjUpdate reg ty s).featureName = s.featureName ∧
    (globalObjUpdate reg ty s).featureExtraProtect = s.featureExtraProtect ∧
    (globalObjUpdate reg ty s).output = s.output := by
  unfold globalObjUpdate
  split_ifs <;> simp

/-- The global lists grow only by appending under `globalObjUpdate`. -/
theorem globalObjUpdate_mono (reg : Registry) (ty : String) (s : GenState) :
    s.dispatchable_objects <+: (globalObjUpdate reg ty s).dispatchable_objects ∧
    s.non_dispatchable_objects <+: (globalObjUpdate reg ty s).non_dispatchable_objects := by
  unfold globalObjUpdate
  split_ifs <;> simp

/-- The global lists grow only by appending under `paramObjUpdate`. -/
theorem paramObjUpdate_mono (reg : Registry) (ty : String) (s : GenState) :
    s.dispatchable_objects <+: (paramObjUpdate reg ty s).dispatchable_objects ∧
    s.non_dispatchable_objects <+: (paramObjUpdate reg ty s).non_dispatchable_objects := by
  unfold paramObjUpdate
  split_ifs with h
  · have hf := featureObjUpdate_frame ty s
    have hg := globalObjUpdate_mono reg ty (featureObjUpdate ty s)
    rw [hf.1] at hg
    rw [hf.2.1] at hg
    exact hg
  · simp

/-- Update `paramObjUpdate` leaves every field except the three object lists
unchanged. -/
theorem paramObjUpdate_frame (reg : Registry) (ty : String) (s : GenState) :
    (paramObjUpdate reg ty s).feature_protos = s.feature_protos ∧
    (paramObjUpdate reg ty s).feature_names = s.feature_names ∧
    (paramObjUpdate reg ty s).featureName = s.featureName ∧
    (paramObjUpdate reg ty s).featureExtraProtect = s.featureExtraProtect ∧
    (paramObjUpdate reg ty s).output = s.output := by
  unfold paramObjUpdate
  split_ifs with h
  · have hf := featureObjUpdate_frame ty s
    have hg := globalObjUpdate_frame reg ty (featureObjUpdate ty s)
    exact ⟨hg.2.1.trans hf.2.2.1, hg.2.2.1.trans hf.2.2.2.1,
      hg.2.2.2.1.trans hf.2.2.2.2.1, hg.2.2.2.2.1.trans hf.2.2.2.2.2.1,
      hg.2.2.2.2.2.trans hf.2.2.2.2.2.2⟩
  · simp

/-- The string fold underlying `String.join` peels off a left factor. -/
theorem string_foldl_append (l : List String) (x y : String) :
    l.foldl (fun r s => r ++ s) (x ++ y) = x ++ l.foldl (fun r s => r ++ s) y := by
  induction l generalizing y with
  | nil => rfl
  | cons a l ih => rw [List.foldl_cons, List.foldl_cons, String.append_assoc, ih]

/-- Joining nothing with `String.join` is the empty string. -/
theorem string_join_nil : String.join ([] : List String) = "" := rfl

/-- Function `String.join` peels off its first element. -/
theorem string_join_cons (a : String) (l : List String) :
    String.join (a :: l) = a ++ String.join l := by
  unfold String.join
  rw [List.foldl_cons, String.empty_append,
    show a = a ++ "" from (String.append_empty a).symm, string_foldl_append]
  simp

/-- One param visit: the global lists grow only by appending, the
`Param` line is appended to `feature_protos`, and the run-level fields
are untouched. -/
theorem genCmdParamStep_facts (reg : Registry) (p : ParamNode) (s : GenState) :
    s.dispatchable_objects <+: (genCmdParamStep reg p s).dispatchable_objects ∧
    s.non_dispatchable_objects <+: (genCmdParamStep reg p s).non_dispatchable_objects ∧
    (genCmdParamStep reg p s).feature_protos = s.feature_protos ++ paramLine p ∧
    (genCmdParamStep reg p s).feature_names = s.feature_names ∧
    (genCmdParamStep reg p s).featureName = s.featureName ∧
    (genCmdParamStep reg p s).featureExtraProtect = s.featureExtraProtect ∧
    (genCmdParamStep reg p s).output = s.output := by
  unfold genCmdParamStep
  have hm := paramObjUpdate_mono reg (getTypeNameTuple p).1
    { s with feature_protos := s.feature_protos ++ "             Param(\""
        ++ (getTypeNameTuple p).1 ++ "\", \"" ++ (getTypeNameTuple p).2 ++ "\"),\n" }
  have hf := paramObjUpdate_frame reg (getTypeNameTuple p).1
    { s with feature_protos := s.feature_protos ++ "             Param(\""
        ++ (getTypeNameTuple p).1 ++ "\", \"" ++ (getTypeNameTuple p).2 ++ "\"),\n" }
  refine ⟨hm.1, hm.2, ?_, hf.2.1, hf.2.2.1, hf.2.2.2.1, hf.2.2.2.2⟩
  rw [hf.1]
  simp [paramLine, String.append_assoc]

/-- The param loop of `genCmd`: global lists grow only by appending,
the `Param` lines are appended in order, run-level fields untouched. -/
theorem foldParams_facts (reg : Registry) (ps : List ParamNode) (s : GenState) :
    s.dispatchable_objects <+: (ps.foldl (fun st p => genCmdParamStep reg p st) s).dispatchable_objects ∧
    s.non_dispatchable_objects <+: (ps.foldl (fun st p => genCmdParamStep reg p st) s).non_dispatchable_objects ∧
    (ps.foldl (fun st p => genCmdParamStep reg p st) s).feature_protos
      = s.feature_protos ++ String.join (ps.map paramLine) ∧
    (ps.foldl (fun st p => genCmdParamStep reg p st) s).feature_names = s.feature_names ∧
    (ps.foldl (fun st p => genCmdParamStep reg p st) s).featureName = s.featureName ∧
    (ps.foldl (fun st p => genCmdParamStep reg p st) s).featureExtraProtect = s.featureExtraProtect ∧
    (ps.foldl (fun st p => genCmdParamStep reg p st) s).output = s.output := by
  induction ps generalizing s with
  | nil => simp [string_join_nil]
  | cons p ps ih =>
    have h1 := genCmdParamStep_facts reg p s
    have h2 := ih (genCmdParamStep reg p s)
    rw [List.foldl_cons]
    refine ⟨h1.1.trans h2.1, h1.2.1.trans h2.2.1, ?_, h2.2.2.2.1.trans h1.2.2.2.1,
      h2.2.2.2.2.1.trans h1.2.2.2.2.1, h2.2.2.2.2.2.1.trans h1.2.2.2.2.2.1,
      h2.2.2.2.2.2.2.trans h1.2.2.2.2.2.2⟩
    rw [h2.2.2.1, h1.2.2.1]
    simp [string_join_cons, String.append_assoc]

/-- One command visit: the global object lists grow only by appending,
and `feature_names`, the current feature bookkeeping and the emitted
output are untouched (`genCmd` never writes). -/
theorem genCmdStep_facts (reg : Registry) (cmd : CmdInfo) (s : GenState) :
    s.dispatchable_objects <+: (genCmdStep reg cmd s).dispatchable_objects ∧
    s.non_dispatchable_objects <+: (genCmdStep reg cmd s).non_dispatchable_objects ∧
    (genCmdStep reg cmd s).feature_names = s.feature_names ∧
    (genCmdStep reg cmd s).featureName = s.featureName ∧
    (genCmdStep reg cmd s).featureExtraProtect = s.featureExtraProtect ∧
    (genCmdStep reg cmd s).output = s.output := by
  unfold genCmdStep
  have h := foldParams_facts reg cmd.params
    { s with feature_protos :=
        s.feature_protos
          ++ "        Proto(\"" ++ cmd.protoType ++ "\", \"" ++ cmd.protoName.drop 2 ++ "\",\n"
          ++ "            [\n" }
  exact ⟨h.1, h.2.1, h.2.2.2.1, h.2.2.2.2.1, h.2.2.2.2.2.1, h.2.2.2.2.2.2⟩

/-- Update `globalObjUpdate` preserves freedom from duplicates of both global
lists (the membership guards block re-insertion). -/
theorem globalObjUpdate_nodup (reg : Registry) (ty : String) (s : GenState) :
    (s.dispatchable_objects.Nodup → (globalObjUpdate reg ty s).dispatchable_objects.Nodup) ∧
    (s.non_dispatchable_objects.Nodup → (globalObjUpdate reg ty s).non_dispatchable_objects.Nodup) := by
  unfold globalObjUpdate
  split_ifs with h1 h2 h2
  · exact ⟨id, id⟩
  · exact ⟨fun h => h, fun h => nodup_append_one h h2⟩
  · exact ⟨id, id⟩
  · exact ⟨fun h => nodup_append_one h h2, fun h => h⟩

/-- Update `paramObjUpdate` preserves freedom from duplicates of both global
lists. -/
theorem paramObjUpdate_nodup (reg : Registry) (ty : String) (s : GenState) :
    (s.dispatchable_objects.Nodup → (paramObjUpdate reg ty s).dispatchable_objects.Nodup) ∧
    (s.non_dispatchable_objects.Nodup → (paramObjUpdate reg ty s).non_dispatchable_objects.Nodup) := by
  unfold paramObjUpdate
  split_ifs with h
  · have hf := featureObjUpdate_frame ty s
    have hg := globalObjUpdate_nodup reg ty (featureObjUpdate ty s)
    rw [hf.1, hf.2.1] at hg
    exact hg
  · exact ⟨id, id⟩

/-- One param visit preserves freedom from duplicates of both global
lists. -/
theorem genCmdParamStep_nodup (reg : Registry) (p : ParamNode) (s : GenState) :
    (s.dispatchable_objects.Nodup → (genCmdParamStep reg p s).dispatchable_objects.Nodup) ∧
    (s.non_dispatchable_objects.Nodup → (genCmdParamStep reg p s).non_dispatchable_objects.Nodup) := by
  unfold genCmdParamStep
  exact paramObjUpdate_nodup reg (getTypeNameTuple p).1
    { s with feature_protos := s.feature_protos ++ "             Param(\""
        ++ (getTypeNameTuple p).1 ++ "\", \"" ++ (getTypeNameTuple p).2 ++ "\"),\n" }

/-- The param loop preserves freedom from duplicates of both global
lists. -/
theorem foldParams_nodup (reg : Registry) (ps : List ParamNode) (s : GenState) :
    (s.dispatchable_objects.Nodup →
      (ps.foldl (fun st p => genCmdParamStep reg p st) s).dispatchable_objects.Nodup) ∧
    (s.non_dispatchable_objects.Nodup →
      (ps.foldl (fun st p => genCmdParamStep reg p st) s).non_dispatchable_objects.Nodup) := by
  induction ps generalizing s with
  | nil => exact ⟨id, id⟩
  | cons p ps ih =>
    have h1 := genCmdParamStep_nodup reg p s
    have h2 := ih (genCmdParamStep reg p s)
    exact ⟨fun h => h2.1 (h1.1 h), fun h => h2.2 (h1.2 h)⟩

/-- One command visit preserves freedom from duplicates of both global
lists. -/
theorem genCmdStep_nodup (reg : Registry) (cmd : CmdInfo) (s : GenState) :
    (s.dispatchable_objects.Nodup → (genCmdStep reg cmd s).dispatchable_objects.Nodup) ∧
    (s.non_dispatchable_objects.Nodup → (genCmdStep reg cmd s).non_dispatchable_objects.Nodup) := by
  unfold genCmdStep
  exact foldParams_nodup reg cmd.params
    { s with feature_protos :=
        s.feature_protos
          ++ "        Proto(\"" ++ cmd.protoType ++ "\", \"" ++ cmd.protoName.drop 2 ++ "\",\n"
          ++ "            [\n" }

/-- Hook `beginFeature` resets the per-feature accumulators and records the
name, touching nothing global. -/
theorem beginFeatureStep_frame (name : String) (protect : Option String) (s : GenState) :
    (beginFeatureStep name protect s).dispatchable_objects = s.dispatchable_objects ∧
    (beginFeatureStep name protect s).non_dispatchable_objects = s.non_dispatchable_objects ∧
    (beginFeatureStep name protect s).feature_names = s.feature_names ∧
    (beginFeatureStep name protect s).feature_objects = [] ∧
    (beginFeatureStep name protect s).feature_protos = "" ∧
    (beginFeatureStep name protect s).featureName = some name ∧
    (beginFeatureStep name protect s).featureExtraProtect = protect := by
  simp [beginFeatureStep]

/-- Hook `endFeature` leaves both global object lists and the per-feature
accumulators unchanged; it only appends the feature name, clears the
current-feature bookkeeping and writes. -/
theorem endFeatureStep_frame (s : GenState) :
    (endFeatureStep s).dispatchable_objects = s.dispatchable_objects ∧
    (endFeatureStep s).non_dispatchable_objects = s.non_dispatchable_objects ∧
    (endFeatureStep s).feature_objects = s.feature_objects ∧
    (endFeatureStep s).feature_protos = s.feature_protos ∧
    (endFeatureStep s).feature_names = s.feature_names ++ [noneStr s.featureName] := by
  simp [endFeatureStep]

/-- The command loop of one feature: global lists grow only by
appending and stay duplicate-free. -/
theorem foldCmds_facts (reg : Registry) (cs : List CmdInfo) (s : GenState) :
    s.dispatchable_objects <+: (cs.foldl (fun st c => genCmdStep reg c st) s).dispatchable_objects ∧
    s.non_dispatchable_objects <+: (cs.foldl (fun st c => genCmdStep reg c st) s).non_dispatchable_objects ∧
    (s.dispatchable_objects.Nodup →
      (cs.foldl (fun st c => genCmdStep reg c st) s).dispatchable_objects.Nodup) ∧
    (s.non_dispatchable_objects.Nodup →
      (cs.foldl (fun st c => genCmdStep reg c st) s).non_dispatchable_objects.Nodup) := by
  induction cs generalizing s with
  | nil => exact ⟨List.prefix_refl _, List.prefix_refl _, id, id⟩
  | cons c cs ih =>
    have h1 := genCmdStep_facts reg c s
    have h1n := genCmdStep_nodup reg c s
    have h2 := ih (genCmdStep reg c s)
    exact ⟨h1.1.trans h2.1, h1.2.1.trans h2.2.1,
      fun h => h2.2.2.1 (h1n.1 h), fun h => h2.2.2.2 (h1n.2 h)⟩

/-- One whole feature: global lists grow only by appending and stay
duplicate-free. -/
theorem processFeature_facts (reg : Registry) (s : GenState) (f : FeatureNode) :
    s.dispatchable_objects <+: (processFeature reg s f).dispatchable_objects ∧
    s.non_dispatchable_objects <+: (processFeature reg s f).non_dispatchable_objects ∧
    (s.dispatchable_objects.Nodup → (processFeature reg s f).dispatchable_objects.Nodup) ∧
    (s.non_dispatchable_objects.Nodup → (processFeature reg s f).non_dispatchable_objects.Nodup) := by
  unfold processFeature
  have hb := beginFeatureStep_frame f.name f.protect s
  have hf := foldCmds_facts reg f.cmds (beginFeatureStep f.name f.protect s)
  have he := endFeatureStep_frame
    (f.cmds.foldl (fun st c => genCmdStep reg c st) (beginFeatureStep f.name f.protect s))
  rw [hb.1, hb.2.1] at hf
  rw [he.1, he.2.1]
  exact hf

/-- Any run segment: global lists grow only by appending and stay
duplicate-free. -/
theorem foldFeatures_facts (reg : Registry) (fs : List FeatureNode) (s : GenState) :
    s.dispatchable_objects <+: (fs.foldl (processFeature reg) s).dispatchable_objects ∧
    s.non_dispatchable_objects <+: (fs.foldl (processFeature reg) s).non_dispatchable_objects ∧
    (s.dispatchable_objects.Nodup → (fs.foldl (processFeature reg) s).dispatchable_objects.Nodup) ∧
    (s.non_dispatchable_objects.Nodup → (fs.foldl (processFeature reg) s).non_dispatchable_objects.Nodup) := by
  induction fs generalizing s with
  | nil => exact ⟨List.prefix_refl _, List.prefix_refl _, id, id⟩
  | cons f fs ih =>
    have h1 := processFeature_facts reg s f
    have h2 := ih (processFeature reg s f)
    exact ⟨h1.1.trans h2.1, h1.2.1.trans h2.2.1,
      fun h => h2.2.2.1 (h1.2.2.1 h), fun h => h2.2.2.2 (h1.2.2.2 h)⟩

/-- C4: across every run, the global dispatchable and non-dispatchable
object lists never contain the same type name twice, and extending the
run only appends: the earlier lists are prefixes of the later ones, so
once a type name is added its position never changes. -/
theorem global_lists_nodup_stable (reg : Registry) (fs more : List FeatureNode) :
    (runFeatures reg fs).dispatchable_objects.Nodup ∧
    (runFeatures reg fs).non_dispatchable_objects.Nodup ∧
    (runFeatures reg fs).dispatchable_objects
      <+: (runFeatures reg (fs ++ more)).dispatchable_objects ∧
    (runFeatures reg fs).non_dispatchable_objects
      <+: (runFeatures reg (fs ++ more)).non_dispatchable_objects := by
  have h1 := foldFeatures_facts reg fs initialGenState
  have h2 : runFeatures reg (fs ++ more) = more.foldl (processFeature reg) (runFeatures reg fs) := by
    simp [runFeatures, List.foldl_append]
  have h3 := foldFeatures_facts reg more (runFeatures reg fs)
  refine ⟨h1.2.2.1 ?_, h1.2.2.2 ?_, ?_, ?_⟩
  · simp [initialGenState]
  · simp [initialGenState]
  · rw [h2]; exact h3.1
  · rw [h2]; exact h3.2.1

/-- C7: command extraction is total and unvalidated: for every raw
command name, including names shorter than two characters, `genCmd`
records a `Proto` entry whose name is the raw name with its first two
characters unconditionally dropped, and it appends exactly the
parameter lines after it — there is no name validation and no failure
path. -/
theorem proto_name_strip_unconditional (reg : Registry) (s : GenState)
    (rt raw : String) (ps : List ParamNode) :
    (genCmdStep reg ⟨rt, raw, ps⟩ s).feature_protos =
      s.feature_protos
        ++ "        Proto(\"" ++ rt ++ "\", \"" ++ raw.drop 2 ++ "\",\n"
        ++ "            [\n"
        ++ String.join (ps.map paramLine)
        ++ "            ]),\n" := by
  simp only [genCmdStep]
  rw [(foldParams_facts reg ps
    { s with feature_protos :=
        s.feature_protos
          ++ "        Proto(\"" ++ rt ++ "\", \"" ++ raw.drop 2 ++ "\",\n"
          ++ "            [\n" }).2.2.1]

/-- C3 counterexample: visiting `vkCreateInstance` inside the open
feature `VK_VERSION_1_0` changes the global dispatchable object list
during the command visit itself, while the subsequent `endFeature`
leaves both global object lists exactly as they were. -/
theorem globals_change_during_command_visit :
    (genCmdStep regVk cmdVkCreateInstance stateOpenVk10).dispatchable_objects
        ≠ stateOpenVk10.dispatchable_objects ∧
    (endFeatureStep stateAfterCmdVk10).dispatchable_objects
        = stateAfterCmdVk10.dispatchable_objects ∧
    (endFeatureStep stateAfterCmdVk10).non_dispatchable_objects
        = stateAfterCmdVk10.non_dispatchable_objects := by
  refine ⟨by decide, rfl, rfl⟩

/-- C3 amended: the global object lists are updated during the command
visits themselves — `genCmd` appends newly seen handle types
(append-only, duplicate-free) — while `endFeature` leaves both global
object lists unchanged and only appends the feature name to
`feature_names`. -/
theorem globals_updated_at_visit_not_feature_end (reg : Registry) (cmd : CmdInfo) (s : GenState) :
    (endFeatureStep s).dispatchable_objects = s.dispatchable_objects ∧
    (endFeatureStep s).non_dispatchable_objects = s.non_dispatchable_objects ∧
    (endFeatureStep s).feature_names = s.feature_names ++ [noneStr s.featureName] ∧
    s.dispatchable_objects <+: (genCmdStep reg cmd s).dispatchable_objects ∧
    s.non_dispatchable_objects <+: (genCmdStep reg cmd s).non_dispatchable_objects ∧
    (s.dispatchable_objects.Nodup → (genCmdStep reg cmd s).dispatchable_objects.Nodup) ∧
    (s.non_dispatchable_objects.Nodup → (genCmdStep reg cmd s).non_dispatchable_objects.Nodup) := by
  have he := endFeatureStep_frame s
  have hm := genCmdStep_facts reg cmd s
  have hn := genCmdStep_nodup reg cmd s
  exact ⟨he.1, he.2.1, he.2.2.2.2, hm.1, hm.2.1, hn.1, hn.2⟩

/-- Witness for the amended C3 theorem at the concrete
`vkCreateInstance` scenario. -/
theorem globals_updated_at_visit_not_feature_end_witness :
    (genCmdStep regVk cmdVkCreateInstance stateOpenVk10).dispatchable_objects.Nodup ∧
    (genCmdStep regVk cmdVkCreateInstance stateOpenVk10).non_dispatchable_objects.Nodup := by
  have h := globals_updated_at_visit_not_feature_end regVk cmdVkCreateInstance stateOpenVk10
  exact ⟨h.2.2.2.2.2.1 (by decide), h.2.2.2.2.2.2 (by decide)⟩

/-- C2 counterexample: after `beginFeature("VK_VERSION_1_0")` and a
command visit that filled the feature buffers, a second `beginFeature`
without an intervening `endFeature` does not fail: it succeeds and
silently resets `feature_objects` and `feature_protos`, and
`endFeature` with no feature open also proceeds, appending a bogus
entry to `feature_names`. -/
theorem begin_reentry_overwrites_silently :
    stateAfterCmdVk10.feature_objects ≠ [] ∧
    (beginFeatureStep "VK_KHR_surface" none stateAfterCmdVk10).feature_objects = [] ∧
    (beginFeatureStep "VK_KHR_surface" none stateAfterCmdVk10).feature_protos = "" ∧
    (beginFeatureStep "VK_KHR_surface" none stateAfterCmdVk10).featureName
      = some "VK_KHR_surface" ∧
    (endFeatureStep initialGenState).feature_names = [""] := by
  exact ⟨by decide, rfl, rfl, rfl, rfl⟩

/-- C2 amended: a command visit while no feature is open is rejected by
the traversal framework's validation (modelled from the spec), but
`beginFeature` itself performs no state check — invoked while a
feature is open it succeeds and silently resets the open feature's
`feature_objects` and `feature_protos` buffers — and `endFeature`
while closed likewise proceeds, appending an empty name. -/
theorem lifecycle_validation_only_for_commands (reg : Registry) (cmd : CmdInfo)
    (s : GenState) (name : String) (protect : Option String) :
    (s.featureName = none → genCmdValidated reg cmd s = none) ∧
    (s.featureName ≠ none → genCmdValidated reg cmd s = some (genCmdStep reg cmd s)) ∧
    (beginFeatureStep name protect s).feature_objects = [] ∧
    (beginFeatureStep name protect s).feature_protos = "" ∧
    (endFeatureStep s).feature_names = s.feature_names ++ [noneStr s.featureName] := by
  refine ⟨?_, ?_, rfl, rfl, (endFeatureStep_frame s).2.2.2.2⟩
  · intro h
    simp [genCmdValidated, h]
  · intro h
    cases hs : s.featureName with
    | none => exact absurd hs h
    | some v => simp [genCmdValidated, hs]

/-- Witness for the amended C2 theorem: a command visit in the closed
initial state is rejected; the same visit with `VK_VERSION_1_0` open
goes through. -/
theorem lifecycle_validation_only_for_commands_witness :
    genCmdValidated regVk cmdVkCreateInstance initialGenState = none ∧
    genCmdValidated regVk cmdVkCreateInstance stateOpenVk10
      = some (genCmdStep regVk cmdVkCreateInstance stateOpenVk10) := by
  have h1 := lifecycle_validation_only_for_commands regVk cmdVkCreateInstance
    initialGenState "VK_KHR_surface" none
  have h2 := lifecycle_validation_only_for_commands regVk cmdVkCreateInstance
    stateOpenVk10 "VK_KHR_surface" none
  exact ⟨h1.1 rfl, h2.2.1 (by decide)⟩

/-- C9: a handle type declared only through the `name` attribute (no
`<name>` child) is reported as category `handle` by `getTypeCategory`,
yet `isHandleTypeNonDispatchable` — which matches only on the `<name>`
child — returns `false`, so `genCmd` registers the type as
dispatchable regardless of its declared handle macro. -/
theorem attr_only_handle_always_dispatchable (reg : Registry) (n : String)
    (hnochild : ∀ e ∈ reg, e.nameChild ≠ some n)
    (hcat : getTypeCategory reg n = some "handle") (s : GenState)
    (hnd : n ∉ s.dispatchable_objects) :
    isHandleTypeNonDispatchable reg n = false ∧
    (paramObjUpdate reg n s).dispatchable_objects = s.dispatchable_objects ++ [n] ∧
    (paramObjUpdate reg n s).non_dispatchable_objects = s.non_dispatchable_objects := by
  have hfalse : isHandleTypeNonDispatchable reg n = false := by
    unfold isHandleTypeNonDispatchable
    have hnone : reg.find? (fun e => e.nameChild == some n && e.category == some "handle")
        = none := by
      rw [List.find?_eq_none]
      intro e he
      simp [hnochild e he]
    rw [hnone]
  have hf := featureObjUpdate_frame n s
  refine ⟨hfalse, ?_, ?_⟩ <;>
    · unfold paramObjUpdate globalObjUpdate
      simp [hcat, hfalse, hf.1, hf.2.1, hnd]

/-- Witness for C9: the attribute-only declared `VkSurfaceKHR`, whose
macro is the non-dispatchable one, still lands in the dispatchable
list. -/
theorem attr_only_handle_always_dispatchable_witness :
    isHandleTypeNonDispatchable regAttrOnly "VkSurfaceKHR" = false ∧
    (paramObjUpdate regAttrOnly "VkSurfaceKHR" initialGenState).dispatchable_objects
      = ["VkSurfaceKHR"] ∧
    (paramObjUpdate regAttrOnly "VkSurfaceKHR" initialGenState).non_dispatchable_objects
      = [] := by
  have h := attr_only_handle_always_dispatchable regAttrOnly "VkSurfaceKHR"
    (by decide) (by decide) initialGenState (by decide)
  exact ⟨h.1, h.2.1, h.2.2⟩

/-- If the pattern fits inside the fixed head of a block, whether the
block starts with the pattern depends on the head alone. -/
theorem startsWith_append_left (p lit rest : String)
    (h : p.data.length ≤ lit.data.length) :
    strStartsWith (lit ++ rest) p = strStartsWith lit p := by
  unfold strStartsWith
  rw [String.data_append, List.take_append_of_le_length h]

/-- A single character mismatch inside the fixed head of a block
refutes starting with the pattern, whatever the variable tail is. -/
theorem startsWith_append_false (p lit rest : String) (i : Nat)
    (hip : i < p.data.length) (hil : i < lit.data.length)
    (h : p.data[i]? ≠ lit.data[i]?) :
    strStartsWith (lit ++ rest) p = false := by
  unfold strStartsWith
  rw [String.data_append]
  refine Bool.eq_false_iff.2 ?_
  intro hcontra
  have heq : (lit.data ++ rest.data).take p.data.length = p.data :=
    by simpa using hcontra
  have h1 : (lit.data ++ rest.data)[i]? = p.data[i]? := by
    conv_rhs => rw [← heq]
    exact (List.getElem?_take_of_lt hip).symm
  rw [List.getElem?_append_left (by simpa using hil)] at h1
  exact h h1.symm

/-- The dispatchable declaration block starts with its header. -/
theorem dispatchListText_starts_dispatch (l : List String) :
    strStartsWith (dispatchListText l) "object_dispatch_list = [" = true := by
  unfold dispatchListText
  rw [startsWith_append_left _ _ _ (by decide)]
  decide

/-- The dispatchable declaration block does not start with the
non-dispatchable header. -/
theorem dispatchListText_not_nondispatch (l : List String) :
    strStartsWith (dispatchListText l) "object_non_dispatch_list = [" = false := by
  unfold dispatchListText
  exact startsWith_append_false _ _ _ 7 (by decide) (by decide) (by decide)

/-- The non-dispatchable declaration block starts with its header. -/
theorem nonDispatchListText_starts_nondispatch (l : List String) :
    strStartsWith (nonDispatchListText l) "object_non_dispatch_list = [" = true := by
  unfold nonDispatchListText
  rw [startsWith_append_left _ _ _ (by decide)]
  decide

/-- The non-dispatchable declaration block does not start with the
dispatchable header. -/
theorem nonDispatchListText_not_dispatch (l : List String) :
    strStartsWith (nonDispatchListText l) "object_dispatch_list = [" = false := by
  unfold nonDispatchListText
  exact startsWith_append_false _ _ _ 7 (by decide) (by decide) (by decide)

/-- The extension-handling block starts with neither declaration
header. -/
theorem extHandlingText_not_object_lists (b : PlatformBuckets) :
    strStartsWith (extHandlingText b) "object_dispatch_list = [" = false ∧
    strStartsWith (extHandlingText b) "object_non_dispatch_list = [" = false := by
  unfold extHandlingText
  exact ⟨startsWith_append_false _ _ _ 0 (by decide) (by decide) (by decide),
    startsWith_append_false _ _ _ 0 (by decide) (by decide) (by decide)⟩

/-- The structs block starts with neither declaration header. -/
theorem structsText_not_object_lists :
    strStartsWith structsText "object_dispatch_list = [" = false ∧
    strStartsWith structsText "object_non_dispatch_list = [" = false := by
  unfold structsText
  exact ⟨startsWith_append_false _ _ _ 7 (by decide) (by decide) (by decide),
    startsWith_append_false _ _ _ 7 (by decide) (by decide) (by decide)⟩

/-- C8 counterexample: a run in which no dispatchable and no
non-dispatchable handle was ever registered emits neither object-name
list declaration — no `endFile` write starts with either declaration
header. -/
theorem empty_run_emits_no_object_lists :
    ((endFileWrites initialGenState).any
        (fun b => strStartsWith b "object_dispatch_list = ")) = false ∧
    ((endFileWrites initialGenState).any
        (fun b => strStartsWith b "object_non_dispatch_list = ")) = false := by
  decide

/-- C8 amended: `endFile` emits the dispatchable object-name list
declaration exactly when the global dispatchable list is non-empty,
and the non-dispatchable declaration exactly when the global
non-dispatchable list is non-empty. -/
theorem object_list_decls_iff_nonempty (s : GenState) :
    ((endFileWrites s).any (fun b => strStartsWith b "object_dispatch_list = [")
        = !s.dispatchable_objects.isEmpty) ∧
    ((endFileWrites s).any (fun b => strStartsWith b "object_non_dispatch_list = [")
        = !s.non_dispatchable_objects.isEmpty) := by
  unfold endFileWrites
  cases hd : s.dispatchable_objects with
  | nil =>
    cases hn : s.non_dispatchable_objects with
    | nil =>
      simp [dispatchListText_starts_dispatch, dispatchListText_not_nondispatch,
        nonDispatchListText_starts_nondispatch, nonDispatchListText_not_dispatch,
        extHandlingText_not_object_lists, structsText_not_object_lists]
    | cons b m =>
      simp [dispatchListText_starts_dispatch, dispatchListText_not_nondispatch,
        nonDispatchListText_starts_nondispatch, nonDispatchListText_not_dispatch,
        extHandlingText_not_object_lists, structsText_not_object_lists]
  | cons a l =>
    cases hn : s.non_dispatchable_objects with
    | nil =>
      simp [dispatchListText_starts_dispatch, dispatchListText_not_nondispatch,
        nonDispatchListText_starts_nondispatch, nonDispatchListText_not_dispatch,
        extHandlingText_not_object_lists, structsText_not_object_lists]
    | cons b m =>
      simp [dispatchListText_starts_dispatch, dispatchListText_not_nondispatch,
        nonDispatchListText_starts_nondispatch, nonDispatchListText_not_dispatch,
        extHandlingText_not_object_lists, structsText_not_object_lists]

set_option maxRecDepth 4000 in
/-- C6 counterexample: with the registry encoding in which the param
`<type>` texts are the bare names (the pointer star lives outside the
`<type>` element, as in the Vulkan registry), the recorded prototype
carries `Param("VkInstanceCreateInfo", "pInfo")` — no star appears
anywhere in the recorded prototype text, contradicting the claimed
`(VkInstanceCreateInfo*, pInfo)` params; and under the alternative
encoding in which the `<type>` texts carry the star, the feature's
objects list comes out empty instead of `["VkInstance"]`. -/
theorem scenario_star_params_impossible :
    strContains stateAfterCmdVk10.feature_protos "Param(\"VkInstanceCreateInfo\", \"pInfo\")" = true ∧
    strContains stateAfterCmdVk10.feature_protos "VkInstanceCreateInfo*" = false ∧
    strContains stateAfterCmdVk10.feature_protos "VkInstance*" = false ∧
    stateAfterCmdVk10.feature_objects = ["VkInstance"] ∧
    (genCmdStep regVk cmdVkCreateInstanceStar stateOpenVk10).feature_objects = [] := by
  decide

set_option maxRecDepth 4000 in
/-- C6 amended: the `vkCreateInstance` scenario behaves as claimed
except that the recorded parameter types are the bare `<type>` texts
`VkInstanceCreateInfo` and `VkInstance` (no pointer star): the
prototype is recorded under the stripped name `CreateInstance` with
the params in order, the feature's objects equal `["VkInstance"]`,
after feature end the global dispatchable list is `["VkInstance"]`
(nothing non-dispatchable) and the feature names are
`["VK_VERSION_1_0"]`, which the partitioner routes to `common`. -/
theorem scenario_create_instance :
    stateAfterCmdVk10.feature_protos
      = "        Proto(\"VkResult\", \"CreateInstance\",\n            [\n             Param(\"VkInstanceCreateInfo\", \"pInfo\"),\n             Param(\"VkInstance\", \"pInstance\"),\n            ]),\n" ∧
    stateAfterCmdVk10.feature_objects = ["VkInstance"] ∧
    (runFeatures regVk [featVk10]).dispatchable_objects = ["VkInstance"] ∧
    (runFeatures regVk [featVk10]).non_dispatchable_objects = [] ∧
    (runFeatures regVk [featVk10]).feature_names = ["VK_VERSION_1_0"] ∧
    routeExt "VK_VERSION_1_0" = Bucket.common := by
  decide

/-- A type already present in a global list and absent from the open
feature's `objects` is never added to the feature's `objects` by one
param's bookkeeping: the source checks both global lists before
appending. -/
theorem paramObjUpdate_not_readded (reg : Registry) (ty : String) (s : GenState) (t : String)
    (hglob : t ∈ s.dispatchable_objects ∨ t ∈ s.non_dispatchable_objects)
    (hfeat : t ∉ s.feature_objects) :
    t ∉ (paramObjUpdate reg ty s).feature_objects := by
  have hg := globalObjUpdate_frame reg ty (featureObjUpdate ty s)
  unfold paramObjUpdate
  split_ifs with hcat
  · rw [hg.1]
    unfold featureObjUpdate
    split_ifs with h1 h2
    · exact hfeat
    · exact hfeat
    · intro hmem
      rcases List.mem_append.1 hmem with hf | hf
      · exact hfeat hf
      · rw [List.mem_singleton] at hf
        subst hf
        exact h2 hglob
  · exact hfeat

/-- One param visit neither re-adds a globally known type to the open
feature's `objects` nor loses its global registration. -/
theorem genCmdParamStep_not_readded (reg : Registry) (p : ParamNode) (s : GenState) (t : String)
    (hglob : t ∈ s.dispatchable_objects ∨ t ∈ s.non_dispatchable_objects)
    (hfeat : t ∉ s.feature_objects) :
    t ∉ (genCmdParamStep reg p s).feature_objects ∧
    (t ∈ (genCmdParamStep reg p s).dispatchable_objects ∨
      t ∈ (genCmdParamStep reg p s).non_dispatchable_objects) := by
  constructor
  · unfold genCmdParamStep
    exact paramObjUpdate_not_readded reg (getTypeNameTuple p).1
      { s with feature_protos := s.feature_protos ++ "             Param(\""
          ++ (getTypeNameTuple p).1 ++ "\", \"" ++ (getTypeNameTuple p).2 ++ "\"),\n" }
      t hglob hfeat
  · rcases hglob with h | h
    · exact Or.inl ((genCmdParamStep_facts reg p s).1.subset h)
    · exact Or.inr ((genCmdParamStep_facts reg p s).2.1.subset h)

/-- The param loop never re-adds a globally known type to the open
feature's `objects`. -/
theorem foldParams_not_readded (reg : Registry) (ps : List ParamNode) (s : GenState) (t : String)
    (hglob : t ∈ s.dispatchable_objects ∨ t ∈ s.non_dispatchable_objects)
    (hfeat : t ∉ s.feature_objects) :
    t ∉ (ps.foldl (fun st p => genCmdParamStep reg p st) s).feature_objects := by
  induction ps generalizing s with
  | nil => exact hfeat
  | cons p ps ih =>
    have h := genCmdParamStep_not_readded reg p s t hglob hfeat
    exact ih (genCmdParamStep reg p s) h.2 h.1

/-- One command visit never re-adds a globally known type to the open
feature's `objects`. -/
theorem genCmdStep_not_readded (reg : Registry) (cmd : CmdInfo) (s : GenState) (t : String)
    (hglob : t ∈ s.dispatchable_objects ∨ t ∈ s.non_dispatchable_objects)
    (hfeat : t ∉ s.feature_objects) :
    t ∉ (genCmdStep reg cmd s).feature_objects := by
  unfold genCmdStep
  exact foldParams_not_readded reg cmd.params
    { s with feature_protos :=
        s.feature_protos
          ++ "        Proto(\"" ++ cmd.protoType ++ "\", \"" ++ cmd.protoName.drop 2 ++ "\",\n"
          ++ "            [\n" }
    t hglob hfeat

/-- The command loop never re-adds a globally known type to the open
feature's `objects`. -/
theorem foldCmds_not_readded (reg : Registry) (cs : List CmdInfo) (s : GenState) (t : String)
    (hglob : t ∈ s.dispatchable_objects ∨ t ∈ s.non_dispatchable_objects)
    (hfeat : t ∉ s.feature_objects) :
    t ∉ (cs.foldl (fun st c => genCmdStep reg c st) s).feature_objects := by
  induction cs generalizing s with
  | nil => exact hfeat
  | cons c cs ih =>
    have h1 := genCmdStep_not_readded reg c s t hglob hfeat
    have h2 : t ∈ (genCmdStep reg c s).dispatchable_objects ∨
        t ∈ (genCmdStep reg c s).non_dispatchable_objects := by
      rcases hglob with h | h
      · exact Or.inl ((genCmdStep_facts reg c s).1.subset h)
      · exact Or.inr ((genCmdStep_facts reg c s).2.1.subset h)
    exact ih (genCmdStep reg c s) h2 h1

/-- A whole later feature: a type already registered globally when the
feature begins never appears in that feature's `objects`. -/
theorem processFeature_not_readded (reg : Registry) (s : GenState) (f : FeatureNode) (t : String)
    (hglob : t ∈ s.dispatchable_objects ∨ t ∈ s.non_dispatchable_objects) :
    t ∉ (processFeature reg s f).feature_objects := by
  unfold processFeature
  rw [(endFeatureStep_frame _).2.2.1]
  have hb := beginFeatureStep_frame f.name f.protect s
  refine foldCmds_not_readded reg f.cmds (beginFeatureStep f.name f.protect s) t ?_ ?_
  · rw [hb.1, hb.2.1]; exact hglob
  · rw [hb.2.2.2.1]; exact List.not_mem_nil t

/-- A param type of category `handle` ends up in one of the two global
lists right after its own bookkeeping step. -/
theorem paramObjUpdate_registers (reg : Registry) (ty : String) (s : GenState)
    (hcat : getTypeCategory reg ty = some "handle") :
    ty ∈ (paramObjUpdate reg ty s).dispatchable_objects ∨
    ty ∈ (paramObjUpdate reg ty s).non_dispatchable_objects := by
  have hc : (getTypeCategory reg ty == some "handle") = true := by
    rw [hcat]; rfl
  unfold paramObjUpdate
  rw [if_pos hc]
  have hf := featureObjUpdate_frame ty s
  unfold globalObjUpdate
  split_ifs with hnd hmem hmem
  · exact Or.inr hmem
  · right; simp
  · exact Or.inl hmem
  · left; simp

/-- After the param loop, every handle-category type named by one of
the params is in one of the two global lists. -/
theorem foldParams_registers (reg : Registry) (ps : List ParamNode) (s : GenState) (t : String)
    (h : ∃ p ∈ ps, (getTypeNameTuple p).1 = t ∧ getTypeCategory reg t = some "handle") :
    t ∈ (ps.foldl (fun st p => genCmdParamStep reg p st) s).dispatchable_objects ∨
    t ∈ (ps.foldl (fun st p => genCmdParamStep reg p st) s).non_dispatchable_objects := by
  induction ps generalizing s with
  | nil =>
    rcases h with ⟨p, hp, _⟩
    exact absurd hp (List.not_mem_nil p)
  | cons p ps ih =>
    rcases h with ⟨q, hq, hts, hcat⟩
    rcases List.mem_cons.1 hq with rfl | hq'
    · have hcat' : getTypeCategory reg (getTypeNameTuple q).1 = some "handle" := by
        rw [hts]; exact hcat
      have hr : t ∈ (genCmdParamStep reg q s).dispatchable_objects ∨
          t ∈ (genCmdParamStep reg q s).non_dispatchable_objects := by
        have hreg := paramObjUpdate_registers reg (getTypeNameTuple q).1
          { s with feature_protos := s.feature_protos ++ "             Param(\""
              ++ (getTypeNameTuple q).1 ++ "\", \"" ++ (getTypeNameTuple q).2 ++ "\"),\n" }
          hcat'
        rcases hreg with h | h
        · exact Or.inl (by rw [← hts]; exact h)
        · exact Or.inr (by rw [← hts]; exact h)
      have hpre := foldParams_facts reg ps (genCmdParamStep reg q s)
      rcases hr with h | h
      · exact Or.inl (hpre.1.subset h)
      · exact Or.inr (hpre.2.1.subset h)
    · exact ih (genCmdParamStep reg p s) ⟨q, hq', hts, hcat⟩

/-- After one command visit, every handle-category param type of that
command is in one of the two global lists. -/
theorem genCmdStep_registers (reg : Registry) (cmd : CmdInfo) (s : GenState) (t : String)
    (h : ∃ p ∈ cmd.params, (getTypeNameTuple p).1 = t ∧ getTypeCategory reg t = some "handle") :
    t ∈ (genCmdStep reg cmd s).dispatchable_objects ∨
    t ∈ (genCmdStep reg cmd s).non_dispatchable_objects := by
  unfold genCmdStep
  exact foldParams_registers reg cmd.params
    { s with feature_protos :=
        s.feature_protos
          ++ "        Proto(\"" ++ cmd.protoType ++ "\", \"" ++ cmd.protoName.drop 2 ++ "\",\n"
          ++ "            [\n" }
    t h

/-- After the command loop, every handle-category type referenced by
one of the commands is in one of the two global lists. -/
theorem foldCmds_registers (reg : Registry) (cs : List CmdInfo) (s : GenState) (t : String)
    (h : ∃ c ∈ cs, ∃ p ∈ c.params,
      (getTypeNameTuple p).1 = t ∧ getTypeCategory reg t = some "handle") :
    t ∈ (cs.foldl (fun st c => genCmdStep reg c st) s).dispatchable_objects ∨
    t ∈ (cs.foldl (fun st c => genCmdStep reg c st) s).non_dispatchable_objects := by
  induction cs generalizing s with
  | nil =>
    rcases h with ⟨c, hc, _⟩
    exact absurd hc (List.not_mem_nil c)
  | cons c cs ih =>
    rcases h with ⟨d, hd, hrest⟩
    rcases List.mem_cons.1 hd with rfl | hd'
    · have hr := genCmdStep_registers reg d s t hrest
      have hpre := foldCmds_facts reg cs (genCmdStep reg d s)
      rcases hr with h | h
      · exact Or.inl (hpre.1.subset h)
      · exact Or.inr (hpre.2.1.subset h)
    · exact ih (genCmdStep reg c s) ⟨d, hd', hrest⟩

/-- A type referenced by a feature is globally registered once that
feature has been processed. -/
theorem processFeature_registers (reg : Registry) (s : GenState) (f : FeatureNode) (t : String)
    (h : referencedIn reg t f) :
    t ∈ (processFeature reg s f).dispatchable_objects ∨
    t ∈ (processFeature reg s f).non_dispatchable_objects := by
  unfold processFeature
  have he := endFeatureStep_frame
    (f.cmds.foldl (fun st c => genCmdStep reg c st) (beginFeatureStep f.name f.protect s))
  rw [he.1, he.2.1]
  exact foldCmds_registers reg f.cmds (beginFeatureStep f.name f.protect s) t h

/-- Predicate `GoodGlobals` only looks at the two global lists. -/
theorem goodGlobals_of_eq (reg : Registry) (s s' : GenState)
    (hd : s'.dispatchable_objects = s.dispatchable_objects)
    (hn : s'.non_dispatchable_objects = s.non_dispatchable_objects)
    (h : GoodGlobals reg s) : GoodGlobals reg s' := by
  unfold GoodGlobals at h ⊢
  rw [hd, hn]
  exact h

/-- Update `globalObjUpdate` preserves the global classification invariant:
a type is appended exactly to the list matching its handle kind. -/
theorem globalObjUpdate_good (reg : Registry) (ty : String) (s : GenState)
    (h : GoodGlobals reg s) : GoodGlobals reg (globalObjUpdate reg ty s) := by
  obtain ⟨h1, h2, h3, h4⟩ := h
  unfold globalObjUpdate
  split_ifs with hnd hmem hmem
  · exact ⟨h1, h2, h3, h4⟩
  · refine ⟨h1, nodup_append_one h2 hmem, h3, ?_⟩
    intro x hx
    rcases List.mem_append.1 hx with hx | hx
    · exact h4 x hx
    · rw [List.mem_singleton] at hx
      subst hx
      exact hnd
  · exact ⟨h1, h2, h3, h4⟩
  · refine ⟨nodup_append_one h1 hmem, h2, ?_, h4⟩
    intro x hx
    rcases List.mem_append.1 hx with hx | hx
    · exact h3 x hx
    · rw [List.mem_singleton] at hx
      subst hx
      exact Bool.not_eq_true _ ▸ eq_false_of_ne_true hnd
  
/-- Update `paramObjUpdate` preserves the global classification invariant. -/
theorem paramObjUpdate_good (reg : Registry) (ty : String) (s : GenState)
    (h : GoodGlobals reg s) : GoodGlobals reg (paramObjUpdate reg ty s) := by
  unfold paramObjUpdate
  split_ifs with hc
  · have hf := featureObjUpdate_frame ty s
    exact globalObjUpdate_good reg ty (featureObjUpdate ty s)
      (goodGlobals_of_eq reg s (featureObjUpdate ty s) hf.1 hf.2.1 h)
  · exact h

/-- One param visit preserves the global classification invariant. -/
theorem genCmdParamStep_good (reg : Registry) (p : ParamNode) (s : GenState)
    (h : GoodGlobals reg s) : GoodGlobals reg (genCmdParamStep reg p s) := by
  unfold genCmdParamStep
  exact paramObjUpdate_good reg (getTypeNameTuple p).1
    { s with feature_protos := s.feature_protos ++ "             Param(\""
        ++ (getTypeNameTuple p).1 ++ "\", \"" ++ (getTypeNameTuple p).2 ++ "\"),\n" }
    (goodGlobals_of_eq reg s _ rfl rfl h)

/-- The param loop preserves the global classification invariant. -/
theorem foldParams_good (reg : Registry) (ps : List ParamNode) (s : GenState)
    (h : GoodGlobals reg s) :
    GoodGlobals reg (ps.foldl (fun st p => genCmdParamStep reg p st) s) := by
  induction ps generalizing s with
  | nil => exact h
  | cons p ps ih => exact ih (genCmdParamStep reg p s) (genCmdParamStep_good reg p s h)

/-- One command visit preserves the global classification invariant. -/
theorem genCmdStep_good (reg : Registry) (cmd : CmdInfo) (s : GenState)
    (h : GoodGlobals reg s) : GoodGlobals reg (genCmdStep reg cmd s) := by
  have h2 := foldParams_good reg cmd.params
    { s with feature_protos :=
        s.feature_protos
          ++ "        Proto(\"" ++ cmd.protoType ++ "\", \"" ++ cmd.protoName.drop 2 ++ "\",\n"
          ++ "            [\n" }
    (goodGlobals_of_eq reg s _ rfl rfl h)
  unfold genCmdStep
  exact goodGlobals_of_eq reg _ _ rfl rfl h2

/-- The command loop preserves the global classification invariant. -/
theorem foldCmds_good (reg : Registry) (cs : List CmdInfo) (s : GenState)
    (h : GoodGlobals reg s) :
    GoodGlobals reg (cs.foldl (fun st c => genCmdStep reg c st) s) := by
  induction cs generalizing s with
  | nil => exact h
  | cons c cs ih => exact ih (genCmdStep reg c s) (genCmdStep_good reg c s h)

/-- A whole feature preserves the global classification invariant. -/
theorem processFeature_good (reg : Registry) (s : GenState) (f : FeatureNode)
    (h : GoodGlobals reg s) : GoodGlobals reg (processFeature reg s f) := by
  unfold processFeature
  have hb := beginFeatureStep_frame f.name f.protect s
  have hgood2 := foldCmds_good reg f.cmds (beginFeatureStep f.name f.protect s)
    (goodGlobals_of_eq reg s _ hb.1 hb.2.1 h)
  have he := endFeatureStep_frame
    (f.cmds.foldl (fun st c => genCmdStep reg c st) (beginFeatureStep f.name f.protect s))
  exact goodGlobals_of_eq reg _ _ he.1 he.2.1 hgood2

/-- The initial state satisfies the global classification invariant. -/
theorem initial_good (reg : Registry) : GoodGlobals reg initialGenState := by
  refine ⟨List.nodup_nil, List.nodup_nil, ?_, ?_⟩ <;> intro x hx <;>
    exact absurd hx (List.not_mem_nil x)

/-- Under the classification invariant, a globally registered type is
counted exactly once across the two global lists. -/
theorem good_count_one (reg : Registry) (s : GenState) (t : String)
    (h : GoodGlobals reg s)
    (hmem : t ∈ s.dispatchable_objects ∨ t ∈ s.non_dispatchable_objects) :
    s.dispatchable_objects.count t + s.non_dispatchable_objects.count t = 1 := by
  obtain ⟨h1, h2, h3, h4⟩ := h
  rcases hmem with hm | hm
  · have hc1 : s.dispatchable_objects.count t = 1 := List.count_eq_one_of_mem h1 hm
    have hn : t ∉ s.non_dispatchable_objects := by
      intro hx
      exact Bool.false_ne_true ((h3 t hm).symm.trans (h4 t hx))
    rw [hc1, List.count_eq_zero_of_not_mem hn]
  · have hc2 : s.non_dispatchable_objects.count t = 1 := List.count_eq_one_of_mem h2 hm
    have hn : t ∉ s.dispatchable_objects := by
      intro hx
      exact Bool.false_ne_true ((h3 t hx).symm.trans (h4 t hm))
    rw [hc2, List.count_eq_zero_of_not_mem hn]

/-- C5: when a handle type is referenced by a command of feature `A`
and again by a command of the later feature `B`, the completed run
over `A` then `B` holds that type exactly once across the two global
object lists, and the type never enters `B`'s own `objects` list,
because it was already globally registered when `B`'s commands were
visited. -/
theorem cross_feature_handle_once (reg : Registry) (A B : FeatureNode) (t : String)
    (hA : referencedIn reg t A) (_hB : referencedIn reg t B) :
    (runFeatures reg [A, B]).dispatchable_objects.count t
        + (runFeatures reg [A, B]).non_dispatchable_objects.count t = 1 ∧
    t ∉ (runFeatures reg [A, B]).feature_objects := by
  have hrun : runFeatures reg [A, B]
      = processFeature reg (processFeature reg initialGenState A) B := rfl
  have hAmem := processFeature_registers reg initialGenState A t hA
  have hgoodA : GoodGlobals reg (processFeature reg initialGenState A) :=
    processFeature_good reg initialGenState A (initial_good reg)
  have hgoodB : GoodGlobals reg
      (processFeature reg (processFeature reg initialGenState A) B) :=
    processFeature_good reg (processFeature reg initialGenState A) B hgoodA
  have hBmem : t ∈ (processFeature reg (processFeature reg initialGenState A) B).dispatchable_objects
      ∨ t ∈ (processFeature reg (processFeature reg initialGenState A) B).non_dispatchable_objects := by
    rcases hAmem with h | h
    · exact Or.inl ((processFeature_facts reg (processFeature reg initialGenState A) B).1.subset h)
    · exact Or.inr ((processFeature_facts reg (processFeature reg initialGenState A) B).2.1.subset h)
  rw [hrun]
  exact ⟨good_count_one reg _ t hgoodB hBmem,
    processFeature_not_readded reg (processFeature reg initialGenState A) B t hAmem⟩

/-- Witness for C5: `VkInstance` is referenced by `vkCreateInstance`
in `VK_VERSION_1_0` and again by `vkDestroyInstance` in
`VK_KHR_surface`; after both features it is counted once globally and
is absent from the second feature's `objects`. -/
theorem cross_feature_handle_once_witness :
    (runFeatures regVk [featVk10, featVkDestroy]).dispatchable_objects.count "VkInstance"
        + (runFeatures regVk [featVk10, featVkDestroy]).non_dispatchable_objects.count "VkInstance"
        = 1 ∧
    "VkInstance" ∉ (runFeatures regVk [featVk10, featVkDestroy]).feature_objects := by
  exact cross_feature_handle_once regVk featVk10 featVkDestroy "VkInstance"
    (by decide) (by decide)
